import Mathlib

/-
  A shallow embedding of the RegoDB command handlers (src/app/commands.go,
  src/app/types.go, and the DB / blocking-registry file) in Lean 4.

  Conventions of the embedding:
  * Go `time.Time` instants are modelled as `Int`; the zero value of
    `time.Time` (meaning "no expiration") is modelled as `none` in an
    `Option Int`.  `time.Now().After(t)` is strict `now > t`.
  * `sync.Map` is modelled as a function `String → Option StoredValue`
    with the Load / Store / Delete operations used by the handlers.
  * A Go panic (the unchecked type assertion in handleGet) is modelled by
    an `Option` result: `none` means the handler panics.
  * `strconv.ParseFloat` is abstracted as a boolean oracle parameter
    (floating point is outside the embedding); only its success or failure
    matters to the modelled control flow.
  * Error-message strings follow the source, with the ASCII quotes around
    command names omitted from arity messages.
  * The `data map[string]string` of a stream entry is modelled as an
    association list built with last-write-wins insertion.
-/

namespace RegoDB

/-- A single entry within a stream: mirrors `StreamEntryData` of types.go. -/
structure StreamEntryData where
  id : String
  data : List (String × String)
deriving Repr, DecidableEq

/-- The three stored-value shapes of types.go (`Entry`, `ListEntry`,
`StreamEntry`), as the tagged union the `interface` value in the Go map holds. -/
inductive StoredValue where
  | entry (value : String) (expiresAt : Option Int)
  | listEntry (elements : List String) (expiresAt : Option Int)
  | streamEntry (entries : List StreamEntryData) (expiresAt : Option Int)
deriving Repr, DecidableEq

/-- The global `DB sync.Map`, as a finite-support map from keys to values. -/
def DBType := String → Option StoredValue

def DB.load (db : DBType) (k : String) : Option StoredValue := db k

def DB.store (db : DBType) (k : String) (v : StoredValue) : DBType :=
  fun x => if x = k then some v else db x

def DB.delete (db : DBType) (k : String) : DBType :=
  fun x => if x = k then none else db x

def DB.empty : DBType := fun _ => none

/-- The RESP reply shapes produced by the writer helpers
(writeSimpleString, writeBulkString, writeNullBulkString, writeInteger,
writeError, writeArray). -/
inductive Reply where
  | simple (s : String)
  | bulk (s : String)
  | nullBulk
  | integer (n : Int)
  | error (msg : String)
  | array (elems : List String)
deriving Repr, DecidableEq

def wrongTypeMsg : String :=
  "WRONGTYPE Operation against a key holding the wrong kind of value"

/-- Go: `!expiresAt.IsZero() && time.Now().After(expiresAt)`. -/
def isExpired (expiresAt : Option Int) (now : Int) : Bool :=
  match expiresAt with
  | none => false
  | some t => now > t

/-- The digit-accumulation loop of `strconv.ParseInt` for base 10. -/
def digitsVal (cs : List Char) (acc : Nat) : Option Nat :=
  match cs with
  | [] => some acc
  | c :: rest =>
      if c.isDigit then digitsVal rest (acc * 10 + (c.toNat - 48)) else none

/-- Digits with an already-stripped sign; empty digit strings are invalid,
and the value must fit in 64-bit signed range (Go returns ErrRange
otherwise). -/
def parseIntDigits (cs : List Char) (neg : Bool) : Option Int :=
  match cs with
  | [] => none
  | _ :: _ =>
      match digitsVal cs 0 with
      | none => none
      | some n =>
          let v : Int := if neg then -(n : Int) else (n : Int)
          if v < -(2 ^ 63) ∨ (2 ^ 63) - 1 < v then none else some v

/-- `strconv.ParseInt(s, 10, 64)` (and `strconv.Atoi` on a 64-bit platform):
optional sign, then one or more decimal digits, within int64 range. -/
def parseInt64 (s : String) : Option Int :=
  match s.toList with
  | [] => none
  | '+' :: rest => parseIntDigits rest false
  | '-' :: rest => parseIntDigits rest true
  | cs => parseIntDigits cs false

/-- The PX-scanning loop of handleSet:
`for i := 3; i < len(args)-1; i++ { if ToUpper(args[i]) == "PX" { ... } }`.
Returns the error reply on a bad PX value, otherwise the final expiration. -/
def pxLoop (args : List String) (now : Int) (i : Nat) (acc : Option Int) :
    Except String (Option Int) :=
  if h : i < args.length - 1 then
    if (args.getD i "").toUpper = "PX" then
      match parseInt64 (args.getD (i + 1) "") with
      | none => .error "PX value must be integer"
      | some ms => pxLoop args now (i + 1) (some (now + ms))
    else pxLoop args now (i + 1) acc
  else .ok acc
termination_by args.length - 1 - i

/-- handleSet (commands.go lines 40-67). -/
def handleSet (args : List String) (now : Int) (db : DBType) : Reply × DBType :=
  if args.length < 3 then (.error "wrong number of arguments for set command", db)
  else
    let key := args.getD 1 ""
    let value := args.getD 2 ""
    let px : Except String (Option Int) :=
      if args.length > 4 then pxLoop args now 3 none else .ok none
    match px with
    | .error msg => (.error msg, db)
    | .ok expiresAt => (.simple "OK", DB.store db key (.entry value expiresAt))

/-- handleGet (commands.go lines 69-90).  The Go code performs the unchecked
type assertion `entry := value.(Entry)` before the expiry check; a stored
List or Stream therefore panics, modelled as `none`. -/
def handleGet (args : List String) (now : Int) (db : DBType) :
    Option (Reply × DBType) :=
  if args.length < 2 then
    some (.error "wrong number of arguments for get command", db)
  else
    let key := args.getD 1 ""
    match DB.load db key with
    | none => some (.nullBulk, db)
    | some (.entry value expiresAt) =>
        if isExpired expiresAt now then some (.nullBulk, DB.delete db key)
        else some (.bulk value, db)
    | some (.listEntry _ _) => none
    | some (.streamEntry _ _) => none

/-- handleType (commands.go lines 92-123): reports the stored variant, with
the lazy expiry check (and deletion) applied to Scalar entries only. -/
def handleType (args : List String) (now : Int) (db : DBType) : Reply × DBType :=
  if args.length < 2 then
    (.error "wrong number of arguments for type command", db)
  else
    let key := args.getD 1 ""
    match DB.load db key with
    | none => (.simple "none", db)
    | some (.entry _ expiresAt) =>
        if isExpired expiresAt now then (.simple "none", DB.delete db key)
        else (.simple "string", db)
    | some (.listEntry _ _) => (.simple "list", db)
    | some (.streamEntry _ _) => (.simple "stream", db)

/-- A client blocked on BLPOP.  The source record also carries the list key,
a float timeout, a start time and a completion channel, which drive the
timing goroutine; only the connection identity matters to the state model. -/
structure BlockedClient where
  conn : Nat
deriving Repr, DecidableEq

/-- The `blockedClients map[string][]*BlockedClient` registry: per-key FIFO
queues (map deletion of an empty queue and an absent key both read as `[]`). -/
def Registry := String → List BlockedClient

def Registry.empty : Registry := fun _ => []

/-- notifyBlockedClients: wake the head (longest-waiting) client of the FIFO
queue for `listKey`, if the key holds a non-empty List; pop that head element,
delete the key if the list becomes empty, reply `[listKey, element]` to the
woken client and drop it from the queue.  The third component is the reply
sent to the woken client, if any. -/
def notifyBlockedClients (listKey : String) (db : DBType) (reg : Registry) :
    DBType × Registry × Option (BlockedClient × List String) :=
  match reg listKey with
  | [] => (db, reg, none)
  | client :: restClients =>
      match DB.load db listKey with
      | none => (db, reg, none)
      | some (.entry _ _) => (db, reg, none)
      | some (.streamEntry _ _) => (db, reg, none)
      | some (.listEntry elems exp) =>
          match elems with
          | [] => (db, reg, none)
          | e :: restElems =>
              let db1 :=
                if restElems = [] then DB.delete db listKey
                else DB.store db listKey (.listEntry restElems exp)
              let reg1 : Registry :=
                fun k => if k = listKey then restClients else reg k
              (db1, reg1, some (client, [listKey, e]))

/-- handleRPush (commands.go lines 125-159), including its call to
notifyBlockedClients between the store and the integer reply.  The integer
reply uses the length of the locally built list, computed before the wake
routine may consume an element.  Result: (reply, db, registry, reply sent to
a woken waiter). -/
def handleRPush (args : List String) (db : DBType) (reg : Registry) :
    Reply × DBType × Registry × Option (BlockedClient × List String) :=
  if args.length < 3 then
    (.error "wrong number of arguments for rpush command", db, reg, none)
  else
    let key := args.getD 1 ""
    match DB.load db key with
    | some (.entry _ _) => (.error wrongTypeMsg, db, reg, none)
    | some (.streamEntry _ _) => (.error wrongTypeMsg, db, reg, none)
    | some (.listEntry elems exp) =>
        let elements := elems ++ args.drop 2
        let db1 := DB.store db key (.listEntry elements exp)
        let n := notifyBlockedClients key db1 reg
        (.integer elements.length, n.1, n.2.1, n.2.2)
    | none =>
        let elements := args.drop 2
        let db1 := DB.store db key (.listEntry elements none)
        let n := notifyBlockedClients key db1 reg
        (.integer elements.length, n.1, n.2.1, n.2.2)

/-- The prepend loop of handleLPush:
`for i := 2; ...: elements = append([]string{args[i]}, elements...)`. -/
def lpushLoop (vals : List String) (elements : List String) : List String :=
  match vals with
  | [] => elements
  | v :: rest => lpushLoop rest (v :: elements)

/-- handleLPush (commands.go lines 162-197), shaped like `handleRPush` but
prepending each successive argument at the head. -/
def handleLPush (args : List String) (db : DBType) (reg : Registry) :
    Reply × DBType × Registry × Option (BlockedClient × List String) :=
  if args.length < 3 then
    (.error "wrong number of arguments for lpush command", db, reg, none)
  else
    let key := args.getD 1 ""
    match DB.load db key with
    | some (.entry _ _) => (.error wrongTypeMsg, db, reg, none)
    | some (.streamEntry _ _) => (.error wrongTypeMsg, db, reg, none)
    | some (.listEntry elems exp) =>
        let elements := lpushLoop (args.drop 2) elems
        let db1 := DB.store db key (.listEntry elements exp)
        let n := notifyBlockedClients key db1 reg
        (.integer elements.length, n.1, n.2.1, n.2.2)
    | none =>
        let elements := lpushLoop (args.drop 2) []
        let db1 := DB.store db key (.listEntry elements none)
        let n := notifyBlockedClients key db1 reg
        (.integer elements.length, n.1, n.2.1, n.2.2)

/-- handleLPop (commands.go lines 200-275). -/
def handleLPop (args : List String) (db : DBType) : Reply × DBType :=
  if args.length < 2 ∨ args.length > 3 then
    (.error "wrong number of arguments for lpop command", db)
  else
    let key := args.getD 1 ""
    let countRes : Except Reply Int :=
      if args.length = 3 then
        match parseInt64 (args.getD 2 "") with
        | none => .error (.error "value is not an integer or out of range")
        | some c =>
            if c < 0 then .error (.error "value is not an integer or out of range")
            else .ok c
      else .ok 1
    match countRes with
    | .error r => (r, db)
    | .ok count =>
        match DB.load db key with
        | none =>
            if args.length = 3 then (.array [], db) else (.nullBulk, db)
        | some (.entry _ _) => (.error wrongTypeMsg, db)
        | some (.streamEntry _ _) => (.error wrongTypeMsg, db)
        | some (.listEntry elems exp) =>
            if elems = [] then
              if args.length = 3 then (.array [], db) else (.nullBulk, db)
            else
              let elementsToRemove := min count.toNat elems.length
              let removedElements := elems.take elementsToRemove
              let remaining := elems.drop elementsToRemove
              let db1 :=
                if remaining = [] then DB.delete db key
                else DB.store db key (.listEntry remaining exp)
              if args.length = 3 then (.array removedElements, db1)
              else (.bulk (removedElements.getD 0 ""), db1)

/-- handleLRange (commands.go lines 278-339). -/
def handleLRange (args : List String) (db : DBType) : Reply × DBType :=
  if args.length ≠ 4 then
    (.error "wrong number of arguments for lrange command", db)
  else
    match parseInt64 (args.getD 2 "") with
    | none => (.error "invalid start index", db)
    | some start0 =>
        match parseInt64 (args.getD 3 "") with
        | none => (.error "invalid stop index", db)
        | some stop0 =>
            match DB.load db (args.getD 1 "") with
            | none => (.array [], db)
            | some (.entry _ _) => (.error wrongTypeMsg, db)
            | some (.streamEntry _ _) => (.error wrongTypeMsg, db)
            | some (.listEntry elems _) =>
                let listLen : Int := (elems.length : Int)
                let start1 := if start0 < 0 then max (listLen + start0) 0 else start0
                let stop1 := if stop0 < 0 then max (listLen + stop0) 0 else stop0
                if start1 ≥ listLen then (.array [], db)
                else
                  let stop2 := if stop1 ≥ listLen then listLen - 1 else stop1
                  if start1 > stop2 then (.array [], db)
                  else
                    (.array ((elems.drop start1.toNat).take (stop2 + 1 - start1).toNat),
                     db)

/-- handleLLen (commands.go lines 342-359). -/
def handleLLen (args : List String) (db : DBType) : Reply × DBType :=
  if args.length ≠ 2 then
    (.error "wrong number of arguments for llen command", db)
  else
    match DB.load db (args.getD 1 "") with
    | none => (.integer 0, db)
    | some (.entry _ _) => (.error wrongTypeMsg, db)
    | some (.streamEntry _ _) => (.error wrongTypeMsg, db)
    | some (.listEntry elems _) => (.integer elems.length, db)

/-- The outcome of a BLPOP call: an immediate reply, or the caller is
suspended by `blockClient(conn, listKeys[0], timeout)` — registered on the
single key carried by `blocked`. -/
inductive BLPopOutcome where
  | reply (r : Reply) (db : DBType)
  | blocked (key : String) (db : DBType)

def BLPopOutcome.db : BLPopOutcome → DBType
  | .reply _ db => db
  | .blocked _ db => db

/-- The immediate-pop scanning loop of handleBLPop over the candidate keys,
in argument order: a missing key and a key holding an empty List are skipped;
a key holding a non-List value returns the WRONGTYPE error at once; the first
key holding a non-empty List has its head popped (deleting the key if the
list becomes empty) and yields the `[key, element]` array reply.  `none`
means the loop fell through without replying. -/
def blpopScan (keys : List String) (db : DBType) : Option BLPopOutcome :=
  match keys with
  | [] => none
  | key :: rest =>
      match DB.load db key with
      | none => blpopScan rest db
      | some (.entry _ _) => some (.reply (.error wrongTypeMsg) db)
      | some (.streamEntry _ _) => some (.reply (.error wrongTypeMsg) db)
      | some (.listEntry elems exp) =>
          match elems with
          | [] => blpopScan rest db
          | e :: restElems =>
              let db1 :=
                if restElems = [] then DB.delete db key
                else DB.store db key (.listEntry restElems exp)
              some (.reply (.array [key, e]) db1)

/-- handleBLPop (commands.go lines 362-412).  `floatOk` abstracts the
success of `strconv.ParseFloat` on the trailing timeout argument. -/
def handleBLPop (floatOk : String → Bool) (args : List String) (db : DBType) :
    BLPopOutcome :=
  if args.length < 3 then
    .reply (.error "wrong number of arguments for blpop command") db
  else if floatOk (args.getD (args.length - 1) "") = false then
    .reply (.error "timeout is not a float or out of range") db
  else
    let listKeys := (args.drop 1).take (args.length - 2)
    match blpopScan listKeys db with
    | some out => out
    | none => .blocked (listKeys.getD 0 "") db

/-- Go `strings.Split(s, "-")`: split the string at every occurrence of the
separator character, keeping empty parts. -/
def splitDash (cs : List Char) (acc : List Char) : List String :=
  match cs with
  | [] => [⟨acc.reverse⟩]
  | c :: rest =>
      if c = '-' then ⟨acc.reverse⟩ :: splitDash rest []
      else splitDash rest (c :: acc)

/-- parseEntryID (commands.go lines 415-432): split on "-", require exactly
two parts, parse each as a signed 64-bit integer. -/
def parseEntryID (idStr : String) : Except String (Int × Int) :=
  match splitDash idStr.toList [] with
  | [tsStr, seqStr] =>
      match parseInt64 tsStr with
      | none => .error "invalid timestamp in entry ID"
      | some t =>
          match parseInt64 seqStr with
          | none => .error "invalid sequence number in entry ID"
          | some s => .ok (t, s)
  | _ => .error "invalid entry ID format"

/-- validateEntryID (commands.go lines 435-465): `some msg` is the returned
error, `none` means the id is accepted. -/
def validateEntryID (newID : String) (entries : List StreamEntryData) :
    Option String :=
  match parseEntryID newID with
  | .error e => some e
  | .ok (newTimestamp, newSequence) =>
      if newTimestamp = 0 ∧ newSequence = 0 then
        some "The ID specified in XADD must be greater than 0-0"
      else
        match entries.getLast? with
        | none => none
        | some lastEntry =>
            match parseEntryID lastEntry.id with
            | .error e => some e
            | .ok (lastTimestamp, lastSequence) =>
                if newTimestamp < lastTimestamp ∨
                    (newTimestamp = lastTimestamp ∧ newSequence ≤ lastSequence) then
                  some "The ID specified in XADD is equal or smaller than the target stream top item"
                else none

/-- Go map assignment `data[field] = value`: last-write-wins insertion. -/
def mapInsert (m : List (String × String)) (field value : String) :
    List (String × String) :=
  if m.any (fun p => p.1 = field) then
    m.map (fun p => if p.1 = field then (field, value) else p)
  else m ++ [(field, value)]

/-- The field-value pairing loop of handleXAdd:
`for i := 3; i < len(args); i += 2 { data[args[i]] = args[i+1] }`. -/
def buildData (pairs : List String) (acc : List (String × String)) :
    List (String × String) :=
  match pairs with
  | f :: v :: rest => buildData rest (mapInsert acc f v)
  | _ => acc

/-- handleXAdd (commands.go lines 468-528). -/
def handleXAdd (args : List String) (db : DBType) : Reply × DBType :=
  if args.length < 4 then
    (.error "wrong number of arguments for xadd command", db)
  else
    let key := args.getD 1 ""
    let entryID := args.getD 2 ""
    if (args.length - 3) % 2 ≠ 0 then
      (.error "wrong number of arguments for xadd command", db)
    else
      let data := buildData (args.drop 3) []
      match DB.load db key with
      | some (.entry _ _) => (.error wrongTypeMsg, db)
      | some (.listEntry _ _) => (.error wrongTypeMsg, db)
      | some (.streamEntry entries exp) =>
          match validateEntryID entryID entries with
          | some msg => (.error msg, db)
          | none =>
              (.bulk entryID,
               DB.store db key
                 (.streamEntry (entries ++ [⟨entryID, data⟩]) exp))
      | none =>
          match validateEntryID entryID [] with
          | some msg => (.error msg, db)
          | none =>
              (.bulk entryID,
               DB.store db key (.streamEntry [⟨entryID, data⟩] none))

/-- Iterating `handleLPop [LPOP, key]` (no count argument) `n` times,
collecting the replies in order. -/
def lpopDrain (key : String) (db : DBType) : Nat → List Reply × DBType
  | 0 => ([], db)
  | n + 1 =>
      let r := handleLPop ["LPOP", key] db
      let rest := lpopDrain key r.2 n
      (r.1 :: rest.1, rest.2)

/-- No key maps to an empty list (the invariant of C7). -/
def noEmptyList (db : DBType) : Prop :=
  ∀ k exp, db k ≠ some (.listEntry [] exp)

/-- Entry-id of a stream entry when it parses. -/
def entryIdOf (e : StreamEntryData) : Option (Int × Int) :=
  match parseEntryID e.id with
  | .ok p => some p
  | .error _ => none

/-- Strict order on (timestamp, sequence) pairs. -/
def idLt (a b : Int × Int) : Prop :=
  a.1 < b.1 ∨ (a.1 = b.1 ∧ a.2 < b.2)

/-- Well-formedness of a stream: every entry-id parses and is not the zero
id, and consecutive entry-ids are strictly increasing. -/
def streamOK (entries : List StreamEntryData) : Prop :=
  (∀ e ∈ entries, ∃ p, entryIdOf e = some p ∧ p ≠ (0, 0)) ∧
  List.Chain'
    (fun a b => ∀ pa pb, entryIdOf a = some pa → entryIdOf b = some pb → idLt pa pb)
    entries

/-- The stream invariant over a stored value. -/
def streamInv (v : Option StoredValue) : Prop :=
  match v with
  | some (.streamEntry entries _) => streamOK entries
  | _ => True

/-- A key the BLPOP scanning loop skips: missing, or holding an empty List. -/
def scanSkip (db : DBType) (k : String) : Prop :=
  db k = none ∨ ∃ exp, db k = some (.listEntry [] exp)

/- ### Helper lemmas -/

theorem DB.store_self (db : DBType) (k : String) (v : StoredValue) :
    DB.store db k v k = some v := by
  simp [DB.store]

theorem DB.store_other (db : DBType) (k x : String) (v : StoredValue)
    (h : x ≠ k) : DB.store db k v x = db x := by
  simp [DB.store, h]

theorem DB.delete_self (db : DBType) (k : String) : DB.delete db k k = none := by
  simp [DB.delete]

theorem DB.delete_other (db : DBType) (k x : String) (h : x ≠ k) :
    DB.delete db k x = db x := by
  simp [DB.delete, h]

theorem lpushLoop_eq (vals elements : List String) :
    lpushLoop vals elements = vals.reverse ++ elements := by
  induction vals generalizing elements with
  | nil => simp [lpushLoop]
  | cons v rest ih => simp [lpushLoop, ih]

theorem notify_empty_queue (key : String) (db : DBType) (reg : Registry)
    (h : reg key = []) : notifyBlockedClients key db reg = (db, reg, none) := by
  simp [notifyBlockedClients, h]

theorem handleRPush_existing (key v0 : String) (vs elems : List String)
    (exp : Option Int) (db : DBType) (reg : Registry)
    (h : db key = some (.listEntry elems exp)) :
    handleRPush ("RPUSH" :: key :: v0 :: vs) db reg =
      (.integer (elems ++ v0 :: vs).length,
       notifyBlockedClients key
         (DB.store db key (.listEntry (elems ++ v0 :: vs) exp)) reg) := by
  simp [handleRPush, DB.load, h]

theorem handleRPush_fresh (key v0 : String) (vs : List String)
    (db : DBType) (reg : Registry) (h : db key = none) :
    handleRPush ("RPUSH" :: key :: v0 :: vs) db reg =
      (.integer (v0 :: vs).length,
       notifyBlockedClients key
         (DB.store db key (.listEntry (v0 :: vs) none)) reg) := by
  simp [handleRPush, DB.load, h]

theorem handleLPush_existing (key v0 : String) (vs elems : List String)
    (exp : Option Int) (db : DBType) (reg : Registry)
    (h : db key = some (.listEntry elems exp)) :
    handleLPush ("LPUSH" :: key :: v0 :: vs) db reg =
      (.integer ((v0 :: vs).reverse ++ elems).length,
       notifyBlockedClients key
         (DB.store db key (.listEntry ((v0 :: vs).reverse ++ elems) exp)) reg) := by
  simp [handleLPush, DB.load, h, lpushLoop_eq]

theorem handleLPush_fresh (key v0 : String) (vs : List String)
    (db : DBType) (reg : Registry) (h : db key = none) :
    handleLPush ("LPUSH" :: key :: v0 :: vs) db reg =
      (.integer ((v0 :: vs).reverse).length,
       notifyBlockedClients key
         (DB.store db key (.listEntry ((v0 :: vs).reverse) none)) reg) := by
  simp [handleLPush, DB.load, h, lpushLoop_eq]

theorem getD_append_self (l : List String) (x d : String) :
    (l ++ [x]).getD l.length d = x := by
  induction l with
  | nil => rfl
  | cons a as ih => simpa using ih

theorem blpopScan_skip_cons (k : String) (rest : List String) (db : DBType)
    (h : scanSkip db k) : blpopScan (k :: rest) db = blpopScan rest db := by
  rcases h with h | ⟨exp, h⟩ <;> simp [blpopScan, DB.load, h]

theorem blpopScan_all_skip (keys : List String) (db : DBType)
    (h : ∀ k ∈ keys, scanSkip db k) : blpopScan keys db = none := by
  induction keys with
  | nil => rfl
  | cons k rest ih =>
      rw [blpopScan_skip_cons k rest db (h k (by simp))]
      exact ih fun x hx => h x (by simp [hx])

theorem handleBLPop_keys (floatOk : String → Bool) (k0 t : String)
    (ks : List String) (db : DBType) (hfl : floatOk t = true) :
    handleBLPop floatOk ("BLPOP" :: (k0 :: ks) ++ [t]) db =
      match blpopScan (k0 :: ks) db with
      | some out => out
      | none => .blocked k0 db := by
  have hlen : ("BLPOP" :: (k0 :: ks) ++ [t]).length = ks.length + 3 := by
    simp [List.length_append]
  have hget : ("BLPOP" :: (k0 :: ks) ++ [t]).getD (ks.length + 3 - 1) "" = t := by
    have := getD_append_self (k0 :: ks) t ""
    simpa using this
  have htake : (("BLPOP" :: (k0 :: ks) ++ [t]).drop 1).take (ks.length + 3 - 2) =
      k0 :: ks := by
    have := List.take_left (k0 :: ks) [t]
    simpa using this
  simp only [handleBLPop, hlen, hget, htake, hfl]
  norm_num

theorem blpopScan_append_skip (pre rest : List String) (db : DBType)
    (h : ∀ k ∈ pre, scanSkip db k) :
    blpopScan (pre ++ rest) db = blpopScan rest db := by
  induction pre with
  | nil => rfl
  | cons k ks ih =>
      rw [List.cons_append, blpopScan_skip_cons k _ db (h k (by simp))]
      exact ih fun x hx => h x (by simp [hx])

theorem noEmptyList_store_ne (db : DBType) (k : String) (v : StoredValue)
    (h : noEmptyList db) (hv : ∀ exp, v ≠ .listEntry [] exp) :
    noEmptyList (DB.store db k v) := by
  intro x exp hc
  rcases eq_or_ne x k with hx | hx
  · subst hx
    rw [DB.store_self] at hc
    exact hv exp (Option.some.inj hc)
  · rw [DB.store_other db k x v hx] at hc
    exact h x exp hc

theorem noEmptyList_delete (db : DBType) (k : String) (h : noEmptyList db) :
    noEmptyList (DB.delete db k) := by
  intro x exp hc
  rcases eq_or_ne x k with hx | hx
  · subst hx
    rw [DB.delete_self] at hc
    cases hc
  · rw [DB.delete_other db k x hx] at hc
    exact h x exp hc

theorem noEmptyList_popStep (db : DBType) (k : String) (rest : List String)
    (exp : Option Int) (h : noEmptyList db) :
    noEmptyList (if rest = [] then DB.delete db k
                 else DB.store db k (.listEntry rest exp)) := by
  split
  · exact noEmptyList_delete db k h
  · refine noEmptyList_store_ne db k _ h fun e hc => ?_
    cases hc
    simp_all

theorem notify_noEmptyList (k : String) (db : DBType) (reg : Registry)
    (h : noEmptyList db) :
    noEmptyList (notifyBlockedClients k db reg).1 := by
  unfold notifyBlockedClients
  rcases reg k with _ | ⟨c, cs⟩
  · exact h
  · rcases DB.load db k with _ | ⟨val, e⟩ | ⟨elems, e⟩ | ⟨es, e⟩
    · exact h
    · exact h
    · rcases elems with _ | ⟨x, xs⟩
      · exact h
      · exact noEmptyList_popStep db k xs e h
    · exact h

theorem handleSet_noEmptyList (args : List String) (now : Int) (db : DBType)
    (h : noEmptyList db) : noEmptyList (handleSet args now db).2 := by
  unfold handleSet
  dsimp only
  split
  · exact h
  · split
    · exact h
    · exact noEmptyList_store_ne _ _ _ h fun e hc => by cases hc

theorem handleGet_noEmptyList (args : List String) (now : Int) (db : DBType)
    (out : Reply × DBType) (h : noEmptyList db)
    (hout : handleGet args now db = some out) : noEmptyList out.2 := by
  unfold handleGet at hout
  dsimp only at hout
  split at hout
  · cases Option.some.inj hout; exact h
  · revert hout
    split
    · intro hout; cases Option.some.inj hout; exact h
    · split
      · intro hout; cases Option.some.inj hout
        exact noEmptyList_delete _ _ h
      · intro hout; cases Option.some.inj hout; exact h
    · intro hout; cases hout
    · intro hout; cases hout

theorem drop_ne_nil (args : List String) (hlen : ¬ args.length < 3) :
    args.drop 2 ≠ [] := by
  intro hc
  rw [List.drop_eq_nil_iff_le] at hc
  omega

theorem handleRPush_noEmptyList (args : List String) (db : DBType)
    (reg : Registry) (h : noEmptyList db) :
    noEmptyList (handleRPush args db reg).2.1 := by
  unfold handleRPush
  dsimp only
  split
  · exact h
  · rename_i hlen
    split
    · exact h
    · exact h
    · refine notify_noEmptyList _ _ _ (noEmptyList_store_ne _ _ _ h fun e hc => ?_)
      rw [StoredValue.listEntry.injEq] at hc
      exact drop_ne_nil args hlen (List.append_eq_nil.mp hc.1).2
    · refine notify_noEmptyList _ _ _ (noEmptyList_store_ne _ _ _ h fun e hc => ?_)
      rw [StoredValue.listEntry.injEq] at hc
      exact drop_ne_nil args hlen hc.1

theorem handleLPush_noEmptyList (args : List String) (db : DBType)
    (reg : Registry) (h : noEmptyList db) :
    noEmptyList (handleLPush args db reg).2.1 := by
  unfold handleLPush
  dsimp only
  split
  · exact h
  · rename_i hlen
    split
    · exact h
    · exact h
    · refine notify_noEmptyList _ _ _ (noEmptyList_store_ne _ _ _ h fun e hc => ?_)
      rw [StoredValue.listEntry.injEq, lpushLoop_eq] at hc
      exact drop_ne_nil args hlen
        (List.reverse_eq_nil_iff.mp (List.append_eq_nil.mp hc.1).1)
    · refine notify_noEmptyList _ _ _ (noEmptyList_store_ne _ _ _ h fun e hc => ?_)
      rw [StoredValue.listEntry.injEq, lpushLoop_eq] at hc
      exact drop_ne_nil args hlen
        (List.reverse_eq_nil_iff.mp (List.append_eq_nil.mp hc.1).1)

theorem handleLPop_noEmptyList (args : List String) (db : DBType)
    (h : noEmptyList db) : noEmptyList (handleLPop args db).2 := by
  unfold handleLPop
  dsimp only
  split
  · exact h
  · split
    · exact h
    · split
      · split <;> exact h
      · exact h
      · exact h
      · split
        · split <;> exact h
        · split <;> exact noEmptyList_popStep _ _ _ _ h

theorem blpopScan_noEmptyList (keys : List String) (db : DBType)
    (out : BLPopOutcome) (h : noEmptyList db)
    (hout : blpopScan keys db = some out) : noEmptyList out.db := by
  induction keys with
  | nil => cases hout
  | cons k rest ih =>
      unfold blpopScan at hout
      revert hout
      split
      · exact fun hout => ih hout
      · intro hout; cases Option.some.inj hout; exact h
      · intro hout; cases Option.some.inj hout; exact h
      · split
        · exact fun hout => ih hout
        · intro hout; cases Option.some.inj hout
          exact noEmptyList_popStep _ _ _ _ h

theorem handleBLPop_noEmptyList (floatOk : String → Bool) (args : List String)
    (db : DBType) (h : noEmptyList db) :
    noEmptyList (handleBLPop floatOk args db).db := by
  unfold handleBLPop
  dsimp only
  split
  · exact h
  · split
    · exact h
    · split
      · exact blpopScan_noEmptyList _ _ _ h (by assumption)
      · exact h

theorem handleXAdd_noEmptyList (args : List String) (db : DBType)
    (h : noEmptyList db) : noEmptyList (handleXAdd args db).2 := by
  unfold handleXAdd
  dsimp only
  split
  · exact h
  · split
    · exact h
    · split
      · exact h
      · exact h
      · split
        · exact h
        · exact noEmptyList_store_ne _ _ _ h fun e hc => by cases hc
      · split
        · exact h
        · exact noEmptyList_store_ne _ _ _ h fun e hc => by cases hc

theorem lpop_single (key e : String) (es : List String) (exp : Option Int)
    (db : DBType) (h : db key = some (.listEntry (e :: es) exp)) :
    handleLPop ["LPOP", key] db =
      (.bulk e, if es = [] then DB.delete db key
                else DB.store db key (.listEntry es exp)) := by
  simp [handleLPop, DB.load, h, Nat.min_def]

theorem lpop_missing (key : String) (db : DBType) (h : db key = none) :
    handleLPop ["LPOP", key] db = (.nullBulk, db) := by
  simp [handleLPop, DB.load, h]

theorem lpopDrain_succ (key : String) (db : DBType) (n : Nat) :
    lpopDrain key db (n + 1) =
      ((handleLPop ["LPOP", key] db).1 ::
         (lpopDrain key (handleLPop ["LPOP", key] db).2 n).1,
       (lpopDrain key (handleLPop ["LPOP", key] db).2 n).2) := rfl

theorem lpopDrain_spec (key : String) (e : String) (es : List String)
    (exp : Option Int) :
    ∀ db : DBType, db key = some (.listEntry (e :: es) exp) →
      (lpopDrain key db (e :: es).length).1 = (e :: es).map Reply.bulk ∧
      (lpopDrain key db (e :: es).length).2 key = none := by
  induction es generalizing e with
  | nil =>
      intro db h
      rw [show ([e] : List String).length = 0 + 1 from rfl, lpopDrain_succ]
      rw [lpop_single key e [] exp db h]
      simp [lpopDrain, DB.delete_self]
  | cons e2 es2 ih =>
      intro db h
      rw [show (e :: e2 :: es2).length = (e2 :: es2).length + 1 from rfl,
          lpopDrain_succ]
      rw [lpop_single key e (e2 :: es2) exp db h]
      have hstep : (if (e2 :: es2) = ([] : List String) then DB.delete db key
          else DB.store db key (.listEntry (e2 :: es2) exp)) key =
          some (.listEntry (e2 :: es2) exp) := by
        rw [if_neg (by simp)]
        exact DB.store_self ..
      have hih := ih e2 _ hstep
      exact ⟨by rw [List.map_cons]; exact congrArg _ hih.1, hih.2⟩

theorem validate_none_facts (newID : String) (entries : List StreamEntryData)
    (h : validateEntryID newID entries = none) :
    ∃ t s : Int, parseEntryID newID = .ok (t, s) ∧ ¬(t = 0 ∧ s = 0) ∧
      ∀ l ∈ entries.getLast?, ∃ lt ls : Int,
        parseEntryID l.id = .ok (lt, ls) ∧ idLt (lt, ls) (t, s) := by
  unfold validateEntryID at h
  rcases hp : parseEntryID newID with msg | ⟨t, s⟩ <;> simp only [hp] at h
  · cases h
  · by_cases hz : t = 0 ∧ s = 0
    · rw [if_pos hz] at h; cases h
    · rw [if_neg hz] at h
      refine ⟨t, s, rfl, hz, ?_⟩
      rcases hl : entries.getLast? with _ | l
      · simp
      · simp only [hl] at h
        intro x hx
        rw [Option.mem_some_iff] at hx
        subst hx
        rcases hpl : parseEntryID l.id with msg2 | ⟨lt, ls⟩ <;> simp only [hpl] at h
        · cases h
        · refine ⟨lt, ls, rfl, ?_⟩
          by_cases hcmp : t < lt ∨ (t = lt ∧ s ≤ ls)
          · rw [if_pos hcmp] at h; cases h
          · unfold idLt
            push_neg at hcmp
            dsimp only
            omega

theorem streamOK_append (entries : List StreamEntryData) (e : StreamEntryData)
    (p : Int × Int) (h : streamOK entries) (hp : entryIdOf e = some p)
    (hz : p ≠ (0, 0))
    (hgt : ∀ l ∈ entries.getLast?, ∀ pl, entryIdOf l = some pl → idLt pl p) :
    streamOK (entries ++ [e]) := by
  constructor
  · intro x hx
    rcases List.mem_append.mp hx with hx | hx
    · exact h.1 x hx
    · rw [List.mem_singleton] at hx
      subst hx
      exact ⟨p, hp, hz⟩
  · rw [List.chain'_append]
    refine ⟨h.2, List.chain'_singleton _, ?_⟩
    intro x hx y hy
    rw [List.head?_cons, Option.mem_some_iff] at hy
    subst hy
    intro pa pb hpa hpb
    rw [hp] at hpb
    cases Option.some.inj hpb
    exact hgt x hx pa hpa

theorem streamOK_nil : streamOK [] := ⟨by simp, List.chain'_nil⟩

theorem handleXAdd_streamInv (args : List String) (db : DBType)
    (h : ∀ k, streamInv (db k)) :
    ∀ k, streamInv ((handleXAdd args db).2 k) := by
  unfold handleXAdd
  dsimp only
  split
  · exact h
  · split
    · exact h
    · split
      · exact h
      · exact h
      · rename_i entries exp hload
        split
        · exact h
        · rename_i hval
          intro k
          rcases eq_or_ne k (args.getD 1 "") with hk | hk
          · subst hk
            unfold streamInv
            dsimp only
            rw [DB.store_self]
            obtain ⟨t, s, hparse, hz, hlast⟩ := validate_none_facts _ _ hval
            have hstream : streamOK entries := by
              have hk2 := h (args.getD 1 "")
              unfold DB.load at hload
              rw [hload] at hk2
              exact hk2
            refine streamOK_append entries _ (t, s) hstream ?_ ?_ ?_
            · unfold entryIdOf
              dsimp only
              rw [hparse]
            · intro hc
              rw [Prod.mk.injEq] at hc
              exact hz hc
            · intro l hl pl hpl
              obtain ⟨lt, ls, hpl2, hlt⟩ := hlast l hl
              unfold entryIdOf at hpl
              rw [hpl2] at hpl
              cases Option.some.inj hpl
              exact hlt
          · unfold streamInv
            dsimp only
            rw [DB.store_other _ _ _ _ hk]
            exact h k
      · rename_i hload
        split
        · exact h
        · rename_i hval
          intro k
          rcases eq_or_ne k (args.getD 1 "") with hk | hk
          · subst hk
            unfold streamInv
            dsimp only
            rw [DB.store_self]
            obtain ⟨t, s, hparse, hz, hlast⟩ := validate_none_facts _ _ hval
            refine streamOK_append [] _ (t, s) streamOK_nil ?_ ?_ ?_
            · unfold entryIdOf
              dsimp only
              rw [hparse]
            · intro hc
              rw [Prod.mk.injEq] at hc
              exact hz hc
            · intro l hl pl hpl
              simp at hl
          · unfold streamInv
            dsimp only
            rw [DB.store_other _ _ _ _ hk]
            exact h k

theorem handleXAdd_stream (key entryID p0 : String) (ps : List String)
    (db : DBType) (entries : List StreamEntryData) (exp : Option Int)
    (hdb : db key = some (.streamEntry entries exp))
    (heven : (p0 :: ps).length % 2 = 0) :
    handleXAdd ("XADD" :: key :: entryID :: p0 :: ps) db =
      match validateEntryID entryID entries with
      | some msg => (.error msg, db)
      | none =>
          (.bulk entryID,
           DB.store db key
             (.streamEntry (entries ++ [⟨entryID, buildData (p0 :: ps) []⟩]) exp)) := by
  have h2 : (("XADD" :: key :: entryID :: p0 :: ps).length - 3) % 2 = 0 := by
    simp only [List.length_cons] at heven ⊢
    omega
  have h3 : (ps.length + 1) % 2 = 0 := by
    simpa using heven
  simp [handleXAdd, DB.load, hdb, h2]
  rw [if_neg (by omega), if_neg (by omega)]

/- ### Claim theorems -/

/-- C1: the claim says GET on a key holding a non-Scalar variant replies with
a type-mismatch error; in the code handleGet performs the unchecked type
assertion value.(Entry), which panics on a List (modelled as `none`) instead
of producing any reply.  The other parts of the claim hold: GET on an absent
key replies null, on an expired Scalar deletes the key and replies null, and
on a live Scalar replies its value. -/
theorem getListPanicsInsteadOfTypeError :
    handleGet ["GET", "k"] 0
        (DB.store DB.empty "k" (.listEntry ["x"] none)) = none ∧
    handleGet ["GET", "k"] 0 DB.empty = some (.nullBulk, DB.empty) ∧
    handleGet ["GET", "k"] 100 (DB.store DB.empty "k" (.entry "v" (some 50))) =
      some (.nullBulk, DB.delete (DB.store DB.empty "k" (.entry "v" (some 50))) "k") ∧
    handleGet ["GET", "k"] 100 (DB.store DB.empty "k" (.entry "v" none)) =
      some (.bulk "v", DB.store DB.empty "k" (.entry "v" none)) :=
  ⟨rfl, rfl, rfl, rfl⟩

/-- C9: a SET call with exactly four arguments never scans the PX option
(the scan is guarded by more than four arguments), so the value is stored
with no expiration and the reply is OK — even when the fourth argument is
the word PX with no millisecond value following it. -/
theorem setFourArgsSkipsPxScan (key value w : String) (now : Int) (db : DBType) :
    handleSet ["SET", key, value, w] now db =
      (.simple "OK", DB.store db key (.entry value none)) := rfl

/-- C2 counterexample: the claim says the list resulting from one LPUSH call
starts with the pushed arguments in the order given; pushing a then b onto a
fresh key leaves the list ["b", "a"], not ["a", "b"]. -/
theorem lpushGivenOrderFalse :
    (handleLPush ["LPUSH", "k", "a", "b"] DB.empty Registry.empty).2.1 "k" =
      some (.listEntry ["b", "a"] none) ∧
    (["b", "a"] : List String) ≠ ["a", "b"] :=
  ⟨rfl, by decide⟩

/-- C2 amended: for LPUSH the resulting list starts with the pushed
arguments in reversed order (each successive argument is inserted at the
head), preceding whatever was already present; RPUSH appends the arguments
at the tail in the given order.  Stated for a key with no blocked waiters,
so that the wake routine does not consume the head. -/
theorem pushArgumentOrder (key v0 : String) (vs elems : List String)
    (exp : Option Int) (db : DBType) (reg : Registry) (hreg : reg key = []) :
    (db key = none →
      (handleLPush ("LPUSH" :: key :: v0 :: vs) db reg).2.1 key =
        some (.listEntry ((v0 :: vs).reverse) none) ∧
      (handleRPush ("RPUSH" :: key :: v0 :: vs) db reg).2.1 key =
        some (.listEntry (v0 :: vs) none)) ∧
    (db key = some (.listEntry elems exp) →
      (handleLPush ("LPUSH" :: key :: v0 :: vs) db reg).2.1 key =
        some (.listEntry ((v0 :: vs).reverse ++ elems) exp) ∧
      (handleRPush ("RPUSH" :: key :: v0 :: vs) db reg).2.1 key =
        some (.listEntry (elems ++ v0 :: vs) exp)) := by
  constructor
  · intro h
    rw [handleLPush_fresh key v0 vs db reg h, handleRPush_fresh key v0 vs db reg h]
    rw [notify_empty_queue _ _ _ hreg, notify_empty_queue _ _ _ hreg]
    exact ⟨DB.store_self .., DB.store_self ..⟩
  · intro h
    rw [handleLPush_existing key v0 vs elems exp db reg h,
        handleRPush_existing key v0 vs elems exp db reg h]
    rw [notify_empty_queue _ _ _ hreg, notify_empty_queue _ _ _ hreg]
    exact ⟨DB.store_self .., DB.store_self ..⟩

theorem pushArgumentOrder_witness :
    (handleLPush ["LPUSH", "fresh", "a", "b"] DB.empty Registry.empty).2.1 "fresh" =
      some (.listEntry ["b", "a"] none) ∧
    (handleRPush ["RPUSH", "fresh", "a", "b"] DB.empty Registry.empty).2.1 "fresh" =
      some (.listEntry ["a", "b"] none) :=
  (pushArgumentOrder "fresh" "a" ["b"] [] none DB.empty Registry.empty rfl).1 rfl

/-- C8: RPUSH on a key holding a Scalar fails with the WRONGTYPE error and
mutates nothing: the store, the registry and the key entry (value and
expiration) are exactly as before, and no waiter is woken; the error is an
ordinary reply, so the connection stays open. -/
theorem rpushOnScalarRejected (key v v0 : String) (exp : Option Int)
    (vs : List String) (db : DBType) (reg : Registry)
    (h : db key = some (.entry v exp)) :
    handleRPush ("RPUSH" :: key :: v0 :: vs) db reg =
      (.error wrongTypeMsg, db, reg, none) := by
  simp [handleRPush, DB.load, h]

theorem rpushOnScalarRejected_witness :
    handleRPush ["RPUSH", "k", "x"] (DB.store DB.empty "k" (.entry "v" none))
        Registry.empty =
      (.error wrongTypeMsg, DB.store DB.empty "k" (.entry "v" none),
       Registry.empty, none) :=
  rpushOnScalarRejected "k" "v" "x" none [] _ Registry.empty (DB.store_self ..)

/-- C3 counterexample: the claim says every operation treats a key whose
expiration has passed as missing — in particular LLEN on an expired key
behaves as on a missing key.  With the key holding a Scalar whose expiration
instant 0 is long past, handleLLen (which takes no clock at all) replies
WRONGTYPE without deleting the key, while on a missing key it replies the
integer 0. -/
theorem llenExpiredKeyNotMissing :
    handleLLen ["LLEN", "k"] (DB.store DB.empty "k" (.entry "v" (some 0))) =
      (.error wrongTypeMsg, DB.store DB.empty "k" (.entry "v" (some 0))) ∧
    handleLLen ["LLEN", "k"] DB.empty = (.integer 0, DB.empty) ∧
    Reply.error wrongTypeMsg ≠ .integer 0 :=
  ⟨rfl, rfl, by decide⟩

/-- C3 amended: only GET and TYPE check expiration lazily, deleting an
expired key and replying as if it were absent (null, respectively "none").
The other commands never consult the clock: RPUSH, LPUSH, LLEN, LRANGE, LPOP
and BLPOP on a Scalar key whose expiration instant has passed (at every
possible current time — these handlers take no time at all) still treat it
as a live Scalar and reply WRONGTYPE with no deletion, rather than behaving
as on a missing key. -/
theorem expiryCheckedOnlyByGet (key v v0 startStr stopStr tstr : String)
    (t now start0 stop0 : Int) (vs : List String) (db : DBType) (reg : Registry)
    (floatOk : String → Bool)
    (h : db key = some (.entry v (some t))) :
    (now > t →
      handleGet ["GET", key] now db = some (.nullBulk, DB.delete db key) ∧
      handleType ["TYPE", key] now db = (.simple "none", DB.delete db key)) ∧
    handleLLen ["LLEN", key] db = (.error wrongTypeMsg, db) ∧
    handleRPush ("RPUSH" :: key :: v0 :: vs) db reg =
      (.error wrongTypeMsg, db, reg, none) ∧
    handleLPush ("LPUSH" :: key :: v0 :: vs) db reg =
      (.error wrongTypeMsg, db, reg, none) ∧
    handleLPop ["LPOP", key] db = (.error wrongTypeMsg, db) ∧
    (floatOk tstr = true →
      handleBLPop floatOk ["BLPOP", key, tstr] db =
        .reply (.error wrongTypeMsg) db) ∧
    (parseInt64 startStr = some start0 → parseInt64 stopStr = some stop0 →
      handleLRange ["LRANGE", key, startStr, stopStr] db =
        (.error wrongTypeMsg, db)) := by
  refine ⟨?_, ?_, ?_, ?_, ?_, ?_, ?_⟩
  · intro hnow
    constructor
    · simp [handleGet, DB.load, h, isExpired, hnow]
    · simp [handleType, DB.load, h, isExpired, hnow]
  · simp [handleLLen, DB.load, h]
  · simp [handleRPush, DB.load, h]
  · simp [handleLPush, DB.load, h]
  · simp [handleLPop, DB.load, h]
  · intro hfl
    have hb := handleBLPop_keys floatOk key tstr [] db hfl
    simp only [List.cons_append, List.nil_append] at hb
    rw [hb]
    simp [blpopScan, DB.load, h]
  · intro hs ht
    simp [handleLRange, DB.load, h, hs, ht]

theorem expiryCheckedOnlyByGet_witness :
    handleGet ["GET", "k"] 7 (DB.store DB.empty "k" (.entry "v" (some 0))) =
      some (.nullBulk, DB.delete (DB.store DB.empty "k" (.entry "v" (some 0))) "k") ∧
    handleType ["TYPE", "k"] 7 (DB.store DB.empty "k" (.entry "v" (some 0))) =
      (.simple "none", DB.delete (DB.store DB.empty "k" (.entry "v" (some 0))) "k") ∧
    handleBLPop (fun _ => true) ["BLPOP", "k", "0.5"]
        (DB.store DB.empty "k" (.entry "v" (some 0))) =
      .reply (.error wrongTypeMsg) (DB.store DB.empty "k" (.entry "v" (some 0))) ∧
    handleLRange ["LRANGE", "k", "0", "-1"]
        (DB.store DB.empty "k" (.entry "v" (some 0))) =
      (.error wrongTypeMsg, DB.store DB.empty "k" (.entry "v" (some 0))) := by
  have h := expiryCheckedOnlyByGet "k" "v" "x" "0" "-1" "0.5" 0 7 0 (-1) []
    (DB.store DB.empty "k" (.entry "v" (some 0))) Registry.empty (fun _ => true)
    (DB.store_self ..)
  exact ⟨(h.1 (by decide)).1, (h.1 (by decide)).2,
    h.2.2.2.2.2.1 rfl, h.2.2.2.2.2.2 rfl rfl⟩

/-- C10: LRANGE with start 0 and a negative stop so far below zero that
length + stop is still negative clamps the stop index up to 0 rather than
treating it as out of range: the reply is the one-element array holding the
first element of the list. -/
theorem lrangeNegativeStopClampedToZero (key stopStr e : String) (stop0 : Int)
    (es : List String) (exp : Option Int) (db : DBType)
    (hdb : db key = some (.listEntry (e :: es) exp))
    (hstop : parseInt64 stopStr = some stop0)
    (hneg : stop0 < 0)
    (hout : ((e :: es).length : Int) + stop0 < 0) :
    handleLRange ["LRANGE", key, "0", stopStr] db = (.array [e], db) := by
  have h0 : parseInt64 "0" = some 0 := rfl
  simp only [handleLRange, DB.load, List.getD_cons_succ, List.getD_cons_zero]
  rw [if_neg (by simp)]
  simp only [h0, hstop, hdb]
  have hlen : (e :: es).length = es.length + 1 := rfl
  split_ifs <;> try (exfalso; omega)
  have hm : (((e :: es).length : Int) + stop0) ⊔ 0 = 0 := by omega
  rw [hm]
  norm_num

/-- C4: BLPOP scans its candidate keys in argument order (keys that are
missing or hold an empty List are passed over): at the first key holding a
non-empty List the head element e is popped (the key deleted if the list
becomes empty) and the reply is the two-element array [key, e]; a scanned
key holding a non-List value aborts immediately with the WRONGTYPE error and
no mutation; when no candidate key is ready the caller is suspended,
registered on the first candidate key only. -/
theorem blpopScanOrder (floatOk : String → Bool) (t key k0 : String)
    (pre post ks : List String) (db : DBType) (hfl : floatOk t = true)
    (hpre : ∀ k ∈ pre, scanSkip db k) :
    (∀ e restElems exp, db key = some (.listEntry (e :: restElems) exp) →
      handleBLPop floatOk ("BLPOP" :: (pre ++ key :: post) ++ [t]) db =
        .reply (.array [key, e])
          (if restElems = [] then DB.delete db key
           else DB.store db key (.listEntry restElems exp))) ∧
    (∀ v exp, db key = some (.entry v exp) →
      handleBLPop floatOk ("BLPOP" :: (pre ++ key :: post) ++ [t]) db =
        .reply (.error wrongTypeMsg) db) ∧
    (∀ es exp, db key = some (.streamEntry es exp) →
      handleBLPop floatOk ("BLPOP" :: (pre ++ key :: post) ++ [t]) db =
        .reply (.error wrongTypeMsg) db) ∧
    ((∀ k ∈ k0 :: ks, scanSkip db k) →
      handleBLPop floatOk ("BLPOP" :: (k0 :: ks) ++ [t]) db =
        .blocked k0 db) := by
  have hkeys : ∀ out : BLPopOutcome,
      blpopScan (pre ++ key :: post) db = some out →
      handleBLPop floatOk ("BLPOP" :: (pre ++ key :: post) ++ [t]) db = out := by
    intro out hout
    rcases hp : pre ++ key :: post with _ | ⟨q0, qs⟩
    · exact absurd hp (List.append_ne_nil_of_right_ne_nil pre (by simp))
    · rw [hp] at hout
      rw [handleBLPop_keys floatOk q0 t qs db hfl, hout]
  refine ⟨?_, ?_, ?_, ?_⟩
  · intro e restElems exp hdb
    refine hkeys _ ?_
    rw [blpopScan_append_skip pre _ db hpre]
    simp [blpopScan, DB.load, hdb]
  · intro v exp hdb
    refine hkeys _ ?_
    rw [blpopScan_append_skip pre _ db hpre]
    simp [blpopScan, DB.load, hdb]
  · intro es exp hdb
    refine hkeys _ ?_
    rw [blpopScan_append_skip pre _ db hpre]
    simp [blpopScan, DB.load, hdb]
  · intro hall
    rw [handleBLPop_keys floatOk k0 t ks db hfl,
        blpopScan_all_skip _ _ hall]

theorem blpopScanOrder_witness :
    handleBLPop (fun _ => true) ["BLPOP", "missing", "l", "other", "0.5"]
        (DB.store DB.empty "l" (.listEntry ["x"] none)) =
      .reply (.array ["l", "x"])
        (if ([] : List String) = []
         then DB.delete (DB.store DB.empty "l" (.listEntry ["x"] none)) "l"
         else DB.store (DB.store DB.empty "l" (.listEntry ["x"] none)) "l"
           (.listEntry [] none)) := by
  have h := blpopScanOrder (fun _ => true) "0.5" "l" "w" ["missing"] ["other"] []
    (DB.store DB.empty "l" (.listEntry ["x"] none)) rfl
    (by
      intro k hk
      simp only [List.mem_singleton] at hk
      subst hk
      exact Or.inl rfl)
  exact h.1 "x" [] none rfl

/-- C5: a successful RPUSH on a key with blocked BLPOP waiters satisfies at
most one waiter — the head (longest-waiting, FIFO) record of that key's
queue — which receives the reply [key, element] carrying the head element of
the list as it stands after the append; the queue loses exactly its head and
the remaining elements stay in the list (the key deleted only when nothing
remains).  The first conjunct states the at-most-one fact for any wake call:
the queue either loses exactly its head or is unchanged. -/
theorem producerWakesFifoHead (key v0 h0 : String) (vs hs : List String)
    (exp : Option Int) (db : DBType) (reg : Registry) (w : BlockedClient)
    (ws : List BlockedClient) (hreg : reg key = w :: ws) :
    ((notifyBlockedClients key db reg).2.1 key = ws ∨
     (notifyBlockedClients key db reg).2.1 key = w :: ws) ∧
    (db key = none →
      handleRPush ("RPUSH" :: key :: v0 :: vs) db reg =
        (.integer (v0 :: vs).length,
         (if vs = []
          then DB.delete (DB.store db key (.listEntry (v0 :: vs) none)) key
          else DB.store (DB.store db key (.listEntry (v0 :: vs) none)) key
            (.listEntry vs none)),
         (fun k => if k = key then ws else reg k),
         some (w, [key, v0]))) ∧
    (db key = some (.listEntry (h0 :: hs) exp) →
      handleRPush ("RPUSH" :: key :: v0 :: vs) db reg =
        (.integer ((h0 :: hs) ++ v0 :: vs).length,
         DB.store (DB.store db key (.listEntry ((h0 :: hs) ++ v0 :: vs) exp)) key
           (.listEntry (hs ++ v0 :: vs) exp),
         (fun k => if k = key then ws else reg k),
         some (w, [key, h0]))) := by
  refine ⟨?_, ?_, ?_⟩
  · unfold notifyBlockedClients
    rw [hreg]
    rcases hload : DB.load db key with _ | ⟨val, e⟩ | ⟨elems, e⟩ | ⟨es, e⟩
    · right; simp [hreg]
    · right; simp [hreg]
    · rcases elems with _ | ⟨x, xs⟩
      · right; simp [hreg]
      · left; simp
    · right; simp [hreg]
  · intro h
    rw [handleRPush_fresh key v0 vs db reg h]
    unfold notifyBlockedClients DB.load
    rw [hreg, DB.store_self]
  · intro h
    rw [handleRPush_existing key v0 vs (h0 :: hs) exp db reg h]
    unfold notifyBlockedClients DB.load
    rw [hreg, DB.store_self, List.cons_append]
    simp

theorem producerWakesFifoHead_witness :
    handleRPush ["RPUSH", "l", "x"] DB.empty
        (fun k => if k = "l" then [⟨7⟩, ⟨9⟩] else []) =
      (.integer 1,
       (if ([] : List String) = []
        then DB.delete (DB.store DB.empty "l" (.listEntry ["x"] none)) "l"
        else DB.store (DB.store DB.empty "l" (.listEntry ["x"] none)) "l"
          (.listEntry [] none)),
       (fun k => if k = "l" then [(⟨9⟩ : BlockedClient)] else
         (fun k => if k = "l" then [(⟨7⟩ : BlockedClient), ⟨9⟩] else []) k),
       some (⟨7⟩, ["l", "x"])) := by
  have h := producerWakesFifoHead "l" "x" "" [] [] none DB.empty
    (fun k => if k = "l" then [⟨7⟩, ⟨9⟩] else []) ⟨7⟩ [⟨9⟩] (by simp)
  exact h.2.1 rfl

/-- C6: XADD preserves the invariant that entry-ids are strictly increasing
within every stored stream and never equal to the zero id 0-0: an id that
fails validation (not strictly greater than the last entry, or the zero id,
or unparsable) is rejected with the validation error and the store is
unchanged; an accepted call appends the entry and replies the entry-id as a
bulk string; and the zero id 0-0 is always rejected, whatever the stream
holds. -/
theorem xaddIdMonotone :
    (∀ args db, (∀ k, streamInv (db k)) →
      ∀ k, streamInv ((handleXAdd args db).2 k)) ∧
    (∀ key entryID p0 msg (ps : List String) (db : DBType) entries exp,
      db key = some (.streamEntry entries exp) →
      (p0 :: ps).length % 2 = 0 →
      validateEntryID entryID entries = some msg →
      handleXAdd ("XADD" :: key :: entryID :: p0 :: ps) db = (.error msg, db)) ∧
    (∀ key entryID p0 (ps : List String) (db : DBType) entries exp,
      db key = some (.streamEntry entries exp) →
      (p0 :: ps).length % 2 = 0 →
      validateEntryID entryID entries = none →
      handleXAdd ("XADD" :: key :: entryID :: p0 :: ps) db =
        (.bulk entryID,
         DB.store db key
           (.streamEntry (entries ++ [⟨entryID, buildData (p0 :: ps) []⟩]) exp))) ∧
    (∀ entries, validateEntryID "0-0" entries =
      some "The ID specified in XADD must be greater than 0-0") := by
  refine ⟨handleXAdd_streamInv, ?_, ?_, ?_⟩
  · intro key entryID p0 msg ps db entries exp hdb heven hval
    rw [handleXAdd_stream key entryID p0 ps db entries exp hdb heven, hval]
  · intro key entryID p0 ps db entries exp hdb heven hval
    rw [handleXAdd_stream key entryID p0 ps db entries exp hdb heven, hval]
  · intro entries
    rfl

theorem xaddIdMonotone_witness :
    handleXAdd ["XADD", "s", "5-0", "f", "v"]
        (DB.store DB.empty "s" (.streamEntry [] none)) =
      (.bulk "5-0",
       DB.store (DB.store DB.empty "s" (.streamEntry [] none)) "s"
         (.streamEntry ([] ++ [⟨"5-0", buildData ["f", "v"] []⟩]) none)) :=
  xaddIdMonotone.2.2.1 "s" "5-0" "f" ["v"]
    (DB.store DB.empty "s" (.streamEntry [] none)) [] none
    (DB.store_self ..) (by decide) rfl

/-- C7: every pop path (LPOP, the immediate pop inside BLPOP, the
producer-wake pop in notifyBlockedClients) deletes the key when it removes
the last remaining element, and every state-changing handler preserves the
invariant that no key maps to an empty list, so the invariant holds in every
reachable state; moreover draining a list of length n with n single LPOPs
yields its elements in head-to-tail order, the key is absent afterwards, and
the (n+1)th LPOP returns null. -/
theorem emptyListNeverStored :
    (∀ args now db, noEmptyList db → noEmptyList (handleSet args now db).2) ∧
    (∀ args now db out, noEmptyList db → handleGet args now db = some out →
      noEmptyList out.2) ∧
    (∀ args db reg, noEmptyList db → noEmptyList (handleRPush args db reg).2.1) ∧
    (∀ args db reg, noEmptyList db → noEmptyList (handleLPush args db reg).2.1) ∧
    (∀ args db, noEmptyList db → noEmptyList (handleLPop args db).2) ∧
    (∀ floatOk args db, noEmptyList db →
      noEmptyList (handleBLPop floatOk args db).db) ∧
    (∀ k db reg, noEmptyList db → noEmptyList (notifyBlockedClients k db reg).1) ∧
    (∀ args db, noEmptyList db → noEmptyList (handleXAdd args db).2) ∧
    (∀ key e es exp db, db key = some (.listEntry (e :: es) exp) →
      (lpopDrain key db (e :: es).length).1 = (e :: es).map Reply.bulk ∧
      (lpopDrain key db (e :: es).length).2 key = none ∧
      handleLPop ["LPOP", key] (lpopDrain key db (e :: es).length).2 =
        (.nullBulk, (lpopDrain key db (e :: es).length).2)) := by
  refine ⟨handleSet_noEmptyList, handleGet_noEmptyList, handleRPush_noEmptyList,
    handleLPush_noEmptyList, handleLPop_noEmptyList, handleBLPop_noEmptyList,
    notify_noEmptyList, handleXAdd_noEmptyList, ?_⟩
  intro key e es exp db h
  have hd := lpopDrain_spec key e es exp db h
  exact ⟨hd.1, hd.2, lpop_missing key _ hd.2⟩

theorem emptyListNeverStored_witness :
    (lpopDrain "l" (DB.store DB.empty "l" (.listEntry ["a", "b"] none)) 2).1 =
      [Reply.bulk "a", Reply.bulk "b"] ∧
    (lpopDrain "l" (DB.store DB.empty "l" (.listEntry ["a", "b"] none)) 2).2 "l" =
      none := by
  have h := emptyListNeverStored.2.2.2.2.2.2.2.2 "l" "a" ["b"] none
    (DB.store DB.empty "l" (.listEntry ["a", "b"] none)) (DB.store_self ..)
  exact ⟨h.1, h.2.1⟩

theorem lrangeNegativeStopClampedToZero_witness :
    handleLRange ["LRANGE", "k", "0", "-5"]
        (DB.store DB.empty "k" (.listEntry ["a", "b"] none)) =
      (.array ["a"], DB.store DB.empty "k" (.listEntry ["a", "b"] none)) :=
  lrangeNegativeStopClampedToZero "k" "-5" "a" (-5) ["b"] none _
    (DB.store_self ..) rfl (by decide) (by decide)

end RegoDB
